import Mathlib

/-!
Shallow embedding of src/compress.py (SANTIK-Genius/ImageCompressor).

Bytes are modelled as `List Nat` (one entry per byte); file sizes are list
lengths.  The external image library (PIL) is modelled by a `Codec` record
of abstract encode and decode functions, since the repository delegates all
pixel work to it.  Python `float` sizes enter only through
`max_file_size_mb * 1024 * 1024`; multiplying a float by a power of two is
exact, so the target size is modelled as a rational number.  A Python
exception is a `PyError`; a function that can raise returns `Except`.
-/

namespace ImageCompressorPy

/-- A Python exception, as far as the compression path can raise one. -/
inductive PyError where
  | nameError (missing : String)
  | fileNotFound (path : String)
  | zeroDivisionError
  | codecError (msg : String)
  deriving Repr, DecidableEq

/-- The `str(e)` rendering used by the except-branch of `compress_image`. -/
def PyError.str : PyError → String
  | .nameError missing => "NameError: name " ++ missing ++ " is not defined"
  | .fileNotFound path => "FileNotFoundError: " ++ path
  | .zeroDivisionError => "ZeroDivisionError: division by zero"
  | .codecError msg => msg

/-- A decoded PIL image: pixel-buffer dimensions and color mode.  The pixel
data itself never influences the control flow of src/compress.py, only the
byte strings the codec produces from it, so it is not carried here. -/
structure PILImage where
  width : Nat
  height : Nat
  mode : String
  deriving Repr, DecidableEq

/-- `image.convert("RGB")` from PIL: same dimensions, mode RGB. -/
def convertRGB (image : PILImage) : PILImage :=
  { image with mode := "RGB" }

/-- The external codec (PIL `Image.open` / `Image.save`), abstracted: what
bytes each save call produces and how a file decodes.  `saveJPEG` takes the
quality argument of `image.save(..., format="JPEG", quality=q, optimize=True)`;
`saveOther` models `image.save(buffer, format=fmt, optimize=True)` for the
passthrough branch and may raise; `decode` models `Image.open` returning the
image together with its `format` attribute, or raising. -/
structure Codec where
  saveJPEG : PILImage → Int → List Nat
  savePNG : PILImage → List Nat
  saveOther : PILImage → String → Except PyError (List Nat)
  decode : List Nat → Except PyError (PILImage × String)

/-- The configuration fields that `compress_image` reads. -/
structure Config where
  max_file_size_mb : ℚ
  quality_jpeg : Int
  quality_png : Int
  resize_enabled : Bool
  max_width : Nat
  max_height : Nat

/-- The result dictionary `compress_image` returns, as a tagged variant. -/
inductive CompressionResult where
  | skipped (original_size compressed_size : Nat) (savings_percent : ℚ)
      (format : String)
  | compressed (original_size compressed_size : Nat) (savings_percent : ℚ)
      (format : String) (original_format : String)
  | error (msg : String)
  deriving Repr, DecidableEq

/-- A file system: path to file bytes, `none` when the path does not exist. -/
abbrev FS := String → Option (List Nat)

set_option linter.unusedVariables false in
/-- `calculate_target_size` (src/compress.py line 56-57): returns
`max_size_mb * 1024 * 1024`, ignoring `original_size`. -/
def calculate_target_size (original_size : Nat) (max_size_mb : ℚ) : ℚ :=
  max_size_mb * 1024 * 1024

/-- Modelled from the spec: PIL `Image.thumbnail((mw, mh), LANCZOS)` is
external library code, so it is modelled from the resize description of the
spec: scale both dimensions by the common factor
`min (mw / width) (mh / height)` so that the result fits in the bounds with
the aspect ratio preserved within rounding, each dimension floored and kept
at least 1 pixel. -/
def thumbnail (image : PILImage) (mw mh : Nat) : PILImage :=
  let r : ℚ := min ((mw : ℚ) / (image.width : ℚ)) ((mh : ℚ) / (image.height : ℚ))
  { image with
      width := (max 1 ⌊(image.width : ℚ) * r⌋).toNat,
      height := (max 1 ⌊(image.height : ℚ) * r⌋).toNat }

/-- `resize_image` (src/compress.py lines 59-64): identity when the image
already fits in the bounds, otherwise `image.thumbnail(...)`. -/
def resize_image (image : PILImage) (max_width max_height : Nat) : PILImage :=
  if image.width ≤ max_width ∧ image.height ≤ max_height then image
  else thumbnail image max_width max_height

/-- `compress_png` (src/compress.py lines 84-103).  It begins with its own
`from io import BytesIO`, so unlike `compress_jpeg` it raises nothing:
encode PNG; if that size exceeds the target, convert to RGB when needed,
encode one JPEG at the given quality, and return it tagged JPEG only when
it is strictly smaller than the PNG bytes; otherwise return the PNG bytes
tagged PNG. -/
def compress_png (codec : Codec) (image : PILImage) (quality : Int)
    (target_size : ℚ) : List Nat × String :=
  let temp_buffer := codec.savePNG image
  let current_size := temp_buffer.length
  if (current_size : ℚ) > target_size then
    let image_rgb := if image.mode ≠ "RGB" then convertRGB image else image
    let jpeg_buffer := codec.saveJPEG image_rgb quality
    if jpeg_buffer.length < current_size then (jpeg_buffer, "JPEG")
    else (temp_buffer, "PNG")
  else (temp_buffer, "PNG")

/-- The names bound at module level in src/compress.py: the imports of
lines 1-7 (`import os`, `import json`, `import argparse`,
`from pathlib import Path`, `from PIL import Image, ImageOps`,
`import shutil`, `from tqdm import tqdm`) plus the class and function
definitions.  `BytesIO` is not among them: the two
`from io import BytesIO` statements in the file are function-local to
`compress_png` and `compress_image`, and a Python function-local import
binds the name only in that function. -/
def compress_module_globals : List String :=
  ["os", "json", "argparse", "Path", "Image", "ImageOps", "shutil", "tqdm",
   "ImageCompressor", "main"]

/-- The while-loop of `compress_jpeg` (src/compress.py lines 76-81):
while the current buffer is larger than the target and the current quality
exceeds 10, lower the quality by 5 and re-encode; return the last buffer
and the quality reached. -/
def jpegLoop (codec : Codec) (image : PILImage) (target_size : ℚ)
    (temp_buffer : List Nat) (current_quality : Int) : List Nat × Int :=
  if (temp_buffer.length : ℚ) > target_size ∧ current_quality > 10 then
    jpegLoop codec image target_size
      (codec.saveJPEG image (current_quality - 5)) (current_quality - 5)
  else (temp_buffer, current_quality)
termination_by (current_quality - 10).toNat
decreasing_by omega

/-- The body that lines 67-82 of `compress_jpeg` spell out, as it would
execute with `BytesIO` in scope: convert to RGB once when the mode differs
(before the first encode, never inside the loop), encode at the start
quality, then run the step-down loop.  The actual function never reaches
this code (see `compress_jpeg`). -/
def compress_jpeg_body (codec : Codec) (image : PILImage) (quality : Int)
    (target_size : ℚ) : List Nat × Int :=
  let image := if image.mode ≠ "RGB" then convertRGB image else image
  let temp_buffer := codec.saveJPEG image quality
  jpegLoop codec image target_size temp_buffer quality

/-- `compress_jpeg` (src/compress.py lines 66-82).  Its first statement
after the mode check, `temp_buffer = BytesIO()` (line 70), looks `BytesIO`
up in the enclosing scopes; the name is in `compress_module_globals` for
neither this module nor the builtins, so the call raises `NameError`
before any encode.  The loop the function text spells out is
`compress_jpeg_body`. -/
def compress_jpeg (codec : Codec) (image : PILImage) (quality : Int)
    (target_size : ℚ) : Except PyError (List Nat × Int) :=
  if "BytesIO" ∈ compress_module_globals then
    .ok (compress_jpeg_body codec image quality target_size)
  else
    .error (PyError.nameError "BytesIO")

/-- The savings expression of src/compress.py line 150,
`((original_size - compressed_size) / original_size) * 100`, which raises
`ZeroDivisionError` when `original_size` is zero. -/
def savings_percent (original_size compressed_size : Nat) : Except PyError ℚ :=
  if original_size = 0 then .error PyError.zeroDivisionError
  else .ok ((((original_size : ℚ) - (compressed_size : ℚ)) / (original_size : ℚ)) * 100)

/-- The body of `compress_image` (src/compress.py lines 105-159) without
its `except` clause: open and decode the input, take its on-disk size,
compute the target; at or under target copy the file byte-for-byte to the
output path and report `skipped` with zero savings; over target, resize
when enabled, dispatch on the original format (JPEG/JPG to `compress_jpeg`,
PNG to `compress_png`, anything else re-encoded as-is), write the bytes to
the output path, re-read that size, and report `compressed` with the
savings percentage.  Returns the raised `PyError` when a step raises, with
the file system as reached at that point. -/
def compress_image_run (codec : Codec) (fs : FS) (cfg : Config)
    (input_path output_path : String) :
    Except PyError CompressionResult × FS :=
  match fs input_path with
  | none => (.error (PyError.fileNotFound input_path), fs)
  | some file_bytes =>
    match codec.decode file_bytes with
    | .error e => (.error e, fs)
    | .ok (img, original_format) =>
      let original_size := file_bytes.length
      let target_size := calculate_target_size original_size cfg.max_file_size_mb
      if (original_size : ℚ) ≤ target_size then
        (.ok (.skipped original_size original_size 0 original_format),
         fun p => if p = output_path then some file_bytes else fs p)
      else
        let img := if cfg.resize_enabled then
          resize_image img cfg.max_width cfg.max_height else img
        let encoded : Except PyError (List Nat × String) :=
          if original_format = "JPEG" ∨ original_format = "JPG" then
            match compress_jpeg codec img cfg.quality_jpeg target_size with
            | .error e => .error e
            | .ok (data, _quality_used) => .ok (data, "JPEG")
          else if original_format = "PNG" then
            .ok (compress_png codec img cfg.quality_png target_size)
          else
            match codec.saveOther img original_format with
            | .error e => .error e
            | .ok data => .ok (data, original_format)
        match encoded with
        | .error e => (.error e, fs)
        | .ok (compressed_data, output_format) =>
          let fs' : FS := fun p =>
            if p = output_path then some compressed_data else fs p
          let compressed_size := compressed_data.length
          match savings_percent original_size compressed_size with
          | .error e => (.error e, fs')
          | .ok savings =>
            (.ok (.compressed original_size compressed_size savings
                    output_format original_format), fs')

/-- `compress_image` (src/compress.py lines 105-165): the body wrapped in
`try/except Exception`, every raised exception converted to an error
result carrying `str(e)`. -/
def compress_image (codec : Codec) (fs : FS) (cfg : Config)
    (input_path output_path : String) : CompressionResult × FS :=
  match compress_image_run codec fs cfg input_path output_path with
  | (.ok result, fs') => (result, fs')
  | (.error e, fs') => (.error e.str, fs')

/-! Concrete fixtures used by witnesses and counterexamples. -/

/-- A file system holding one three-byte file at path in.img. -/
def fs0 : FS := fun p => if p = "in.img" then some [7, 7, 7] else none

/-- A codec that decodes anything as a 1 by 1 RGB image of format JPEG;
JPEG encodes are two bytes at every quality, PNG encodes three bytes,
passthrough encodes one byte. -/
def jpegCodec : Codec where
  saveJPEG := fun _ _ => [0, 0]
  savePNG := fun _ => [0, 0, 0]
  saveOther := fun _ _ => .ok [0]
  decode := fun _ => .ok (⟨1, 1, "RGB"⟩, "JPEG")

/-- Like `jpegCodec` but decoding anything as format PNG. -/
def pngCodec : Codec :=
  { jpegCodec with decode := fun _ => .ok (⟨1, 1, "RGB"⟩, "PNG") }

/-- Like `jpegCodec` but with a decode that raises. -/
def failCodec : Codec :=
  { jpegCodec with
      decode := fun _ => .error (PyError.codecError "cannot identify image file") }

/-- Configuration with a one-megabyte budget (the repository default). -/
def cfgBig : Config :=
  { max_file_size_mb := 1, quality_jpeg := 85, quality_png := 85,
    resize_enabled := false, max_width := 1920, max_height := 1080 }

/-- Configuration whose budget works out to exactly one byte, so that a
three-byte file takes the compression path. -/
def cfgTiny : Config := { cfgBig with max_file_size_mb := 1 / 1048576 }

/-! Helper lemmas shared by several developments. -/

/-- `BytesIO` is not a module-level name of src/compress.py, so every call
to `compress_jpeg` returns the `NameError`, whatever the arguments. -/
theorem compress_jpeg_eq_nameError (codec : Codec) (image : PILImage)
    (quality : Int) (target_size : ℚ) :
    compress_jpeg codec image quality target_size =
      .error (PyError.nameError "BytesIO") := by
  rw [compress_jpeg, if_neg (by decide)]

/-- Loop invariant of the quality step-down: when the entry quality is at
least 10 and a multiple of 5, the quality the loop returns is still at
least 10 (each executed decrement starts from a quality that is a multiple
of 5 and strictly above 10, hence at least 15). -/
theorem jpegLoop_floor (codec : Codec) (image : PILImage) (target_size : ℚ) :
    ∀ (temp_buffer : List Nat) (q : Int), 10 ≤ q → 5 ∣ q →
      10 ≤ (jpegLoop codec image target_size temp_buffer q).2 := by
  intro temp_buffer q
  induction temp_buffer, q using jpegLoop.induct codec image target_size with
  | case1 buf q hcond ih =>
    intro hq hdvd
    rw [jpegLoop.eq_def]
    simp only [hcond, if_pos]
    exact ih (by omega) (by omega)
  | case2 buf q hcond =>
    intro hq hdvd
    rw [jpegLoop.eq_def]
    simp only [hcond, if_neg]
    simpa using hq

/-- On a file at or under the target, `compress_image` copies the input
bytes to the output path and reports `skipped`. -/
theorem compress_image_skip_eq (codec : Codec) (fs : FS) (cfg : Config)
    (inp out : String) (file_bytes : List Nat) (img : PILImage) (fmt : String)
    (hfs : fs inp = some file_bytes)
    (hdec : codec.decode file_bytes = .ok (img, fmt))
    (hsize : (file_bytes.length : ℚ) ≤
      calculate_target_size file_bytes.length cfg.max_file_size_mb) :
    compress_image codec fs cfg inp out =
      (CompressionResult.skipped file_bytes.length file_bytes.length 0 fmt,
       fun p => if p = out then some file_bytes else fs p) := by
  unfold compress_image compress_image_run
  rw [hfs]
  simp only [hdec, if_pos hsize]

/-! Claim theorems. -/

/-- C7: Flat budget: `calculate_target_size` returns exactly
`max_file_size_mb * 1024 * 1024` and is independent of its
`original_size` argument. -/
theorem calculate_target_size_flat (original_size other_size : Nat)
    (max_size_mb : ℚ) :
    calculate_target_size original_size max_size_mb = max_size_mb * 1048576 ∧
    calculate_target_size original_size max_size_mb =
      calculate_target_size other_size max_size_mb :=
  ⟨by unfold calculate_target_size; ring, rfl⟩

/-- C1: evaluation at the failing input: `compress_jpeg` on a 1 by 1 RGB
image at start quality 85 with a one-megabyte target raises `NameError`
for `BytesIO` before any encode, instead of running the quality search the
claim describes. -/
theorem compress_jpeg_raises_nameError :
    compress_jpeg jpegCodec ⟨1, 1, "RGB"⟩ 85 1048576 =
      .error (PyError.nameError "BytesIO") :=
  compress_jpeg_eq_nameError jpegCodec ⟨1, 1, "RGB"⟩ 85 1048576

/-- C2 counterexample: a start quality of 12 (inside 0..100) with every
encode larger than the one-byte target drives the quality search loop as
written to quality 7, below the claimed floor of 10. -/
theorem quality_floor_counterexample :
    ((0 : Int) ≤ 12 ∧ (12 : Int) ≤ 100) ∧
    (compress_jpeg_body jpegCodec ⟨1, 1, "RGB"⟩ 12 1).2 < 10 := by
  refine ⟨by decide, ?_⟩
  unfold compress_jpeg_body
  norm_num [jpegCodec]
  rw [jpegLoop.eq_def]
  norm_num [jpegCodec]
  rw [jpegLoop.eq_def]
  norm_num

/-- C2 amended: when the start quality is at least 10 and a multiple of 5
(as every quality preset shipped with the repository is), the quality
search loop of `compress_jpeg` returns a quality of at least 10; a start
quality below 10 is returned unchanged, and one that is not a multiple of
5 can end as low as 6. -/
theorem quality_floor_amended (codec : Codec) (image : PILImage)
    (quality : Int) (target_size : ℚ)
    (hq : 10 ≤ quality) (hdvd : 5 ∣ quality) :
    10 ≤ (compress_jpeg_body codec image quality target_size).2 := by
  unfold compress_jpeg_body
  exact jpegLoop_floor codec _ target_size _ quality hq hdvd

/-- C2 amended, witness at start quality 85. -/
theorem quality_floor_amended_witness :
    ((10 : Int) ≤ 85 ∧ (5 : Int) ∣ 85) ∧
    10 ≤ (compress_jpeg_body jpegCodec ⟨1, 1, "RGB"⟩ 85 1).2 :=
  ⟨by decide, quality_floor_amended jpegCodec ⟨1, 1, "RGB"⟩ 85 1
    (by decide) (by decide)⟩

/-- C5: Skip invariant: a file whose size is at or under the target is
copied byte-for-byte to the output path and reported as skipped with
original and compressed sizes equal and zero savings. -/
theorem skip_invariant (codec : Codec) (fs : FS) (cfg : Config)
    (inp out : String) (file_bytes : List Nat) (img : PILImage) (fmt : String)
    (hfs : fs inp = some file_bytes)
    (hdec : codec.decode file_bytes = .ok (img, fmt))
    (hsize : (file_bytes.length : ℚ) ≤
      calculate_target_size file_bytes.length cfg.max_file_size_mb) :
    (compress_image codec fs cfg inp out).1 =
      CompressionResult.skipped file_bytes.length file_bytes.length 0 fmt ∧
    (compress_image codec fs cfg inp out).2 out = some file_bytes := by
  rw [compress_image_skip_eq codec fs cfg inp out file_bytes img fmt hfs hdec hsize]
  exact ⟨rfl, by simp⟩

/-- C5 witness: a three-byte file under the one-megabyte default budget. -/
theorem skip_invariant_witness :
    fs0 "in.img" = some [7, 7, 7] ∧
    ((compress_image jpegCodec fs0 cfgBig "in.img" "out.img").1 =
       CompressionResult.skipped 3 3 0 "JPEG" ∧
     (compress_image jpegCodec fs0 cfgBig "in.img" "out.img").2 "out.img" =
       some [7, 7, 7]) :=
  ⟨rfl, skip_invariant jpegCodec fs0 cfgBig "in.img" "out.img" [7, 7, 7]
    ⟨1, 1, "RGB"⟩ "JPEG" rfl rfl
    (by norm_num [calculate_target_size, cfgBig])⟩

/-- C9: Idempotence on skip: running the pipeline twice on the same
under-budget input writes identical bytes to the output path both times. -/
theorem skip_idempotent (codec : Codec) (fs : FS) (cfg : Config)
    (inp out : String) (file_bytes : List Nat) (img : PILImage) (fmt : String)
    (hfs : fs inp = some file_bytes)
    (hdec : codec.decode file_bytes = .ok (img, fmt))
    (hsize : (file_bytes.length : ℚ) ≤
      calculate_target_size file_bytes.length cfg.max_file_size_mb) :
    (compress_image codec ((compress_image codec fs cfg inp out).2) cfg
        inp out).2 out =
      (compress_image codec fs cfg inp out).2 out ∧
    (compress_image codec fs cfg inp out).2 out = some file_bytes := by
  have h1 := compress_image_skip_eq codec fs cfg inp out file_bytes img fmt
    hfs hdec hsize
  have hfs1 : (compress_image codec fs cfg inp out).2 inp = some file_bytes := by
    rw [h1]
    by_cases h : inp = out <;> simp [h, hfs]
  have h2 := compress_image_skip_eq codec
    ((compress_image codec fs cfg inp out).2) cfg inp out file_bytes img fmt
    hfs1 hdec hsize
  rw [h2, h1]
  simp

/-- C9 witness: the three-byte file of `fs0` twice through the pipeline. -/
theorem skip_idempotent_witness :
    (compress_image jpegCodec
        ((compress_image jpegCodec fs0 cfgBig "in.img" "out.img").2) cfgBig
        "in.img" "out.img").2 "out.img" =
      (compress_image jpegCodec fs0 cfgBig "in.img" "out.img").2 "out.img" ∧
    (compress_image jpegCodec fs0 cfgBig "in.img" "out.img").2 "out.img" =
      some [7, 7, 7] :=
  skip_idempotent jpegCodec fs0 cfgBig "in.img" "out.img" [7, 7, 7]
    ⟨1, 1, "RGB"⟩ "JPEG" rfl rfl
    (by norm_num [calculate_target_size, cfgBig])

/-- C3: `compress_jpeg` references `BytesIO` without any import binding it,
so a JPEG/JPG input over the target always produces an error result
carrying the `NameError` message, and never a compressed result. -/
theorem jpeg_pipeline_always_errors (codec : Codec) (fs : FS) (cfg : Config)
    (inp out : String) (file_bytes : List Nat) (img : PILImage) (fmt : String)
    (hfs : fs inp = some file_bytes)
    (hdec : codec.decode file_bytes = .ok (img, fmt))
    (hfmt : fmt = "JPEG" ∨ fmt = "JPG")
    (hsize : ¬ (file_bytes.length : ℚ) ≤
      calculate_target_size file_bytes.length cfg.max_file_size_mb) :
    (compress_image codec fs cfg inp out).1 =
      CompressionResult.error (PyError.nameError "BytesIO").str ∧
    ∀ n c s f of, (compress_image codec fs cfg inp out).1 ≠
      CompressionResult.compressed n c s f of := by
  have key : (compress_image codec fs cfg inp out).1 =
      CompressionResult.error (PyError.nameError "BytesIO").str := by
    unfold compress_image compress_image_run
    rw [hfs]
    simp only [hdec, if_neg hsize, if_pos hfmt, compress_jpeg_eq_nameError]
  refine ⟨key, ?_⟩
  intro n c s f of
  rw [key]
  simp

/-- C3 witness: a three-byte JPEG over a one-byte budget errors out. -/
theorem jpeg_pipeline_always_errors_witness :
    (compress_image jpegCodec fs0 cfgTiny "in.img" "out.img").1 =
      CompressionResult.error (PyError.nameError "BytesIO").str :=
  (jpeg_pipeline_always_errors jpegCodec fs0 cfgTiny "in.img" "out.img"
    [7, 7, 7] ⟨1, 1, "RGB"⟩ "JPEG" rfl rfl (Or.inl rfl)
    (by norm_num [calculate_target_size, cfgTiny, cfgBig])).1

/-- C4: Fallback Selector contract: the lossless encoding is returned
unchanged when it meets the budget; the returned bytes are never longer
than the lossless encoding; and over budget the selector performs exactly
one lossy re-encode on the mode-normalized image, returning it only when
strictly smaller than the lossless bytes. -/
theorem fallback_selector_contract (codec : Codec) (image : PILImage)
    (quality : Int) (target_size : ℚ) :
    (((codec.savePNG image).length : ℚ) ≤ target_size →
      compress_png codec image quality target_size =
        (codec.savePNG image, "PNG")) ∧
    (compress_png codec image quality target_size).1.length ≤
      (codec.savePNG image).length ∧
    (((codec.savePNG image).length : ℚ) > target_size →
      compress_png codec image quality target_size =
        (let jpeg_buffer := codec.saveJPEG
            (if image.mode ≠ "RGB" then convertRGB image else image) quality
         if jpeg_buffer.length < (codec.savePNG image).length
         then (jpeg_buffer, "JPEG")
         else (codec.savePNG image, "PNG"))) := by
  unfold compress_png
  refine ⟨?_, ?_, ?_⟩
  · intro h
    rw [if_neg (not_lt.mpr h)]
  · dsimp only
    split_ifs <;> dsimp only <;> omega
  · intro h
    rw [if_pos h]

/-- C4 witness: a three-byte PNG over a one-byte budget, with a two-byte
lossy re-encode, comes back as the strictly smaller JPEG. -/
theorem fallback_selector_contract_witness :
    ((((jpegCodec.savePNG ⟨1, 1, "RGB"⟩).length : ℚ) > 1) ∧
      compress_png jpegCodec ⟨1, 1, "RGB"⟩ 85 1 = ([0, 0], "JPEG")) := by
  refine ⟨by norm_num [jpegCodec], ?_⟩
  have h := (fallback_selector_contract jpegCodec ⟨1, 1, "RGB"⟩ 85 1).2.2
    (by norm_num [jpegCodec])
  simpa [jpegCodec] using h

/-- Every ok outcome of the pipeline body is a skipped or a compressed
record, never the error constructor. -/
theorem compress_image_run_ok_pair (codec : Codec) (fs : FS) (cfg : Config)
    (inp out : String) (r : CompressionResult) (fs' : FS)
    (h : compress_image_run codec fs cfg inp out = (.ok r, fs')) :
    (∃ n f, r = .skipped n n 0 f) ∨
    (∃ n c s f of, r = .compressed n c s f of) := by
  unfold compress_image_run at h
  split at h
  · simp at h
  · rename_i file_bytes hfi
    split at h
    · simp at h
    · rename_i v img fmt hdec
      by_cases hsize : (file_bytes.length : ℚ) ≤
          calculate_target_size file_bytes.length cfg.max_file_size_mb
      · rw [if_pos hsize] at h
        exact Or.inl ⟨file_bytes.length, fmt, by simp_all⟩
      · rw [if_neg hsize] at h
        repeat' split at h
        all_goals simp_all
        all_goals (repeat' split at h)
        all_goals (try simp_all)
        all_goals exact Or.inr ⟨_, _, _, _, _, h.1.symm⟩

/-- C6: Error boundary: the pipeline converts every exception raised
inside one call into an error result carrying its message, so it never
propagates an exception to the caller; and an error result arises in no
other way. -/
theorem error_boundary (codec : Codec) (fs : FS) (cfg : Config)
    (inp out : String) :
    (∀ e, (compress_image_run codec fs cfg inp out).1 = .error e →
      (compress_image codec fs cfg inp out).1 =
        CompressionResult.error e.str) ∧
    (∀ msg, (compress_image codec fs cfg inp out).1 =
        CompressionResult.error msg →
      ∃ e, (compress_image_run codec fs cfg inp out).1 = .error e ∧
        msg = e.str) := by
  constructor
  · intro e he
    rcases hrun : compress_image_run codec fs cfg inp out with ⟨res, fsx⟩
    have hres : res = .error e := by rw [hrun] at he; exact he
    unfold compress_image
    rw [hrun, hres]
  · intro msg hmsg
    rcases hrun : compress_image_run codec fs cfg inp out with ⟨res, fsx⟩
    cases res with
    | error e =>
      refine ⟨e, rfl, ?_⟩
      unfold compress_image at hmsg
      rw [hrun] at hmsg
      simpa using hmsg.symm
    | ok r =>
      rcases compress_image_run_ok_pair codec fs cfg inp out r fsx hrun with
        ⟨n, f, rfl⟩ | ⟨n, c, s, f, of, rfl⟩ <;>
        (unfold compress_image at hmsg; rw [hrun] at hmsg; simp at hmsg)

/-- C6 witness: a decode failure comes back as an error result with the
message of the raised exception. -/
theorem error_boundary_witness :
    (compress_image failCodec fs0 cfgBig "in.img" "out.img").1 =
      CompressionResult.error
        (PyError.codecError "cannot identify image file").str :=
  (error_boundary failCodec fs0 cfgBig "in.img" "out.img").1
    (PyError.codecError "cannot identify image file") rfl

/-- C10: with a nonnegative configured budget, so a nonnegative target,
and a codec that itself never raises `ZeroDivisionError`, the pipeline
body never raises `ZeroDivisionError`: the savings division runs only on
the compressed branch, where the original size exceeds the nonnegative
target and is therefore positive (a zero-byte file takes the skipped
branch, whose savings is the constant 0). -/
theorem savings_division_safe (codec : Codec) (fs : FS) (cfg : Config)
    (inp out : String)
    (hmb : 0 ≤ cfg.max_file_size_mb)
    (hcodec : ∀ b, codec.decode b ≠ .error PyError.zeroDivisionError)
    (hother : ∀ i f, codec.saveOther i f ≠ .error PyError.zeroDivisionError) :
    (compress_image_run codec fs cfg inp out).1 ≠
      Except.error PyError.zeroDivisionError ∧
    ∀ n c s f of, (compress_image_run codec fs cfg inp out).1 =
      .ok (.compressed n c s f of) → 0 < n := by
  rcases hrun : compress_image_run codec fs cfg inp out with ⟨res, fsx⟩
  unfold compress_image_run at hrun
  split at hrun
  · obtain ⟨h1, h2⟩ := Prod.ext_iff.mp hrun
    subst h1
    exact ⟨by simp, by intro n c s f of h; simp at h⟩
  · rename_i file_bytes hfi
    split at hrun
    · rename_i e hdec0
      obtain ⟨h1, h2⟩ := Prod.ext_iff.mp hrun
      subst h1
      have hne : e ≠ PyError.zeroDivisionError := by
        intro h0
        exact hcodec file_bytes (h0 ▸ hdec0)
      exact ⟨by simpa using hne, by intro n c s f of h; simp at h⟩
    · rename_i v img fmt hdec0
      by_cases hsize : (file_bytes.length : ℚ) ≤
          calculate_target_size file_bytes.length cfg.max_file_size_mb
      · rw [if_pos hsize] at hrun
        obtain ⟨h1, h2⟩ := Prod.ext_iff.mp hrun
        subst h1
        exact ⟨by simp, by intro n c s f of h; simp at h⟩
      · rw [if_neg hsize] at hrun
        have hos : file_bytes.length ≠ 0 := by
          intro h0
          apply hsize
          rw [h0]
          unfold calculate_target_size
          push_cast
          exact mul_nonneg (mul_nonneg hmb (by norm_num)) (by norm_num)
        have hsav : ∀ cs, savings_percent file_bytes.length cs =
            .ok ((((file_bytes.length : ℚ) - (cs : ℚ)) /
              (file_bytes.length : ℚ)) * 100) := by
          intro cs
          unfold savings_percent
          rw [if_neg hos]
        dsimp only at hrun
        by_cases hfmt : fmt = "JPEG" ∨ fmt = "JPG"
        · rw [if_pos hfmt] at hrun
          simp only [compress_jpeg_eq_nameError] at hrun
          obtain ⟨h1, h2⟩ := Prod.ext_iff.mp hrun
          subst h1
          exact ⟨by simp, by intro n c s f of h; simp at h⟩
        · rw [if_neg hfmt] at hrun
          by_cases hpng : fmt = "PNG"
          · rw [if_pos hpng] at hrun
            rcases hcp : compress_png codec
                (if cfg.resize_enabled = true then
                  resize_image img cfg.max_width cfg.max_height else img)
                cfg.quality_png
                (calculate_target_size file_bytes.length cfg.max_file_size_mb)
              with ⟨png_data, png_fmt⟩
            rw [hcp] at hrun
            dsimp only at hrun
            rw [hsav] at hrun
            obtain ⟨h1, h2⟩ := Prod.ext_iff.mp hrun
            subst h1
            refine ⟨by simp, ?_⟩
            intro n c s f of h
            simp only [Except.ok.injEq, CompressionResult.compressed.injEq] at h
            omega
          · rw [if_neg hpng] at hrun
            rcases hso : codec.saveOther
                (if cfg.resize_enabled = true then
                  resize_image img cfg.max_width cfg.max_height else img) fmt
              with e | data
            · rw [hso] at hrun
              dsimp only at hrun
              obtain ⟨h1, h2⟩ := Prod.ext_iff.mp hrun
              subst h1
              have hne : e ≠ PyError.zeroDivisionError := by
                intro h0
                exact hother _ fmt (h0 ▸ hso)
              exact ⟨by simpa using hne, by intro n c s f of h; simp at h⟩
            · rw [hso] at hrun
              dsimp only at hrun
              rw [hsav] at hrun
              obtain ⟨h1, h2⟩ := Prod.ext_iff.mp hrun
              subst h1
              refine ⟨by simp, ?_⟩
              intro n c s f of h
              simp only [Except.ok.injEq, CompressionResult.compressed.injEq] at h
              omega

/-- C10 witness: a three-byte PNG over a one-byte budget runs the savings
division on a positive original size and raises nothing. -/
theorem savings_division_safe_witness :
    (compress_image_run pngCodec fs0 cfgTiny "in.img" "out.img").1 ≠
      Except.error PyError.zeroDivisionError :=
  (savings_division_safe pngCodec fs0 cfgTiny "in.img" "out.img"
    (by norm_num [cfgTiny, cfgBig])
    (by intro b; simp [pngCodec, jpegCodec])
    (by intro i f; simp [pngCodec, jpegCodec])).1

/-- C8: Resizer contract: an image already inside the bounds is returned
unchanged; an image exceeding them is scaled by one common positive
factor below one, floored per dimension and kept at least one pixel, so
both result dimensions fit the bounds, neither dimension grows, and the
aspect ratio is preserved within rounding. -/
theorem resizer_contract (image : PILImage) (mw mh : Nat)
    (hw : 0 < image.width) (hh : 0 < image.height)
    (hmw : 0 < mw) (hmh : 0 < mh) :
    (image.width ≤ mw ∧ image.height ≤ mh →
      resize_image image mw mh = image) ∧
    (¬(image.width ≤ mw ∧ image.height ≤ mh) →
      (resize_image image mw mh).width ≤ mw ∧
      (resize_image image mw mh).height ≤ mh ∧
      (resize_image image mw mh).width ≤ image.width ∧
      (resize_image image mw mh).height ≤ image.height ∧
      ∃ s : ℚ, 0 < s ∧ s < 1 ∧
        (resize_image image mw mh).width =
          (max 1 ⌊(image.width : ℚ) * s⌋).toNat ∧
        (resize_image image mw mh).height =
          (max 1 ⌊(image.height : ℚ) * s⌋).toNat) := by
  constructor
  · intro h
    unfold resize_image
    rw [if_pos h]
  · intro h
    unfold resize_image
    rw [if_neg h]
    unfold thumbnail
    dsimp only
    set r : ℚ := min ((mw : ℚ) / (image.width : ℚ))
      ((mh : ℚ) / (image.height : ℚ)) with hr
    have hw' : (0 : ℚ) < (image.width : ℚ) := by exact_mod_cast hw
    have hh' : (0 : ℚ) < (image.height : ℚ) := by exact_mod_cast hh
    have hr_pos : 0 < r :=
      lt_min (div_pos (by exact_mod_cast hmw) hw')
        (div_pos (by exact_mod_cast hmh) hh')
    have hr_lt : r < 1 := by
      rcases not_and_or.mp h with hcase | hcase
      · have hlt : (mw : ℚ) / (image.width : ℚ) < 1 := by
          rw [div_lt_one hw']
          exact_mod_cast Nat.lt_of_not_le hcase
        exact lt_of_le_of_lt (min_le_left _ _) hlt
      · have hlt : (mh : ℚ) / (image.height : ℚ) < 1 := by
          rw [div_lt_one hh']
          exact_mod_cast Nat.lt_of_not_le hcase
        exact lt_of_le_of_lt (min_le_right _ _) hlt
    have hfloor_w : ⌊(image.width : ℚ) * r⌋ ≤ (mw : ℤ) := by
      have hle : (image.width : ℚ) * r ≤ (mw : ℚ) := by
        calc (image.width : ℚ) * r
            ≤ (image.width : ℚ) * ((mw : ℚ) / (image.width : ℚ)) :=
              mul_le_mul_of_nonneg_left (min_le_left _ _) (le_of_lt hw')
          _ = (mw : ℚ) := by field_simp
      calc ⌊(image.width : ℚ) * r⌋ ≤ ⌊(mw : ℚ)⌋ := Int.floor_le_floor hle
        _ = (mw : ℤ) := Int.floor_natCast mw
    have hfloor_h : ⌊(image.height : ℚ) * r⌋ ≤ (mh : ℤ) := by
      have hle : (image.height : ℚ) * r ≤ (mh : ℚ) := by
        calc (image.height : ℚ) * r
            ≤ (image.height : ℚ) * ((mh : ℚ) / (image.height : ℚ)) :=
              mul_le_mul_of_nonneg_left (min_le_right _ _) (le_of_lt hh')
          _ = (mh : ℚ) := by field_simp
      calc ⌊(image.height : ℚ) * r⌋ ≤ ⌊(mh : ℚ)⌋ := Int.floor_le_floor hle
        _ = (mh : ℤ) := Int.floor_natCast mh
    have hshr_w : ⌊(image.width : ℚ) * r⌋ ≤ (image.width : ℤ) := by
      have hle : (image.width : ℚ) * r ≤ (image.width : ℚ) := by
        calc (image.width : ℚ) * r ≤ (image.width : ℚ) * 1 :=
              mul_le_mul_of_nonneg_left (le_of_lt hr_lt) (le_of_lt hw')
          _ = (image.width : ℚ) := mul_one _
      calc ⌊(image.width : ℚ) * r⌋ ≤ ⌊(image.width : ℚ)⌋ :=
            Int.floor_le_floor hle
        _ = (image.width : ℤ) := Int.floor_natCast _
    have hshr_h : ⌊(image.height : ℚ) * r⌋ ≤ (image.height : ℤ) := by
      have hle : (image.height : ℚ) * r ≤ (image.height : ℚ) := by
        calc (image.height : ℚ) * r ≤ (image.height : ℚ) * 1 :=
              mul_le_mul_of_nonneg_left (le_of_lt hr_lt) (le_of_lt hh')
          _ = (image.height : ℚ) := mul_one _
      calc ⌊(image.height : ℚ) * r⌋ ≤ ⌊(image.height : ℚ)⌋ :=
            Int.floor_le_floor hle
        _ = (image.height : ℤ) := Int.floor_natCast _
    refine ⟨?_, ?_, ?_, ?_, r, hr_pos, hr_lt, rfl, rfl⟩
    · exact Int.toNat_le.mpr (max_le (by exact_mod_cast hmw) hfloor_w)
    · exact Int.toNat_le.mpr (max_le (by exact_mod_cast hmh) hfloor_h)
    · exact Int.toNat_le.mpr (max_le (by exact_mod_cast hw) hshr_w)
    · exact Int.toNat_le.mpr (max_le (by exact_mod_cast hh) hshr_h)

/-- C8 witness: a 4 by 2 image against 2 by 2 bounds shrinks to fit. -/
theorem resizer_contract_witness :
    (¬(((⟨4, 2, "RGB"⟩ : PILImage).width ≤ 2 ∧
        (⟨4, 2, "RGB"⟩ : PILImage).height ≤ 2))) ∧
    ((resize_image ⟨4, 2, "RGB"⟩ 2 2).width ≤ 2 ∧
     (resize_image ⟨4, 2, "RGB"⟩ 2 2).height ≤ 2 ∧
     (resize_image ⟨4, 2, "RGB"⟩ 2 2).width ≤
        (⟨4, 2, "RGB"⟩ : PILImage).width ∧
     (resize_image ⟨4, 2, "RGB"⟩ 2 2).height ≤
        (⟨4, 2, "RGB"⟩ : PILImage).height ∧
     ∃ s : ℚ, 0 < s ∧ s < 1 ∧
       (resize_image ⟨4, 2, "RGB"⟩ 2 2).width =
         (max 1 ⌊((⟨4, 2, "RGB"⟩ : PILImage).width : ℚ) * s⌋).toNat ∧
       (resize_image ⟨4, 2, "RGB"⟩ 2 2).height =
         (max 1 ⌊((⟨4, 2, "RGB"⟩ : PILImage).height : ℚ) * s⌋).toNat) :=
  ⟨by decide, (resizer_contract ⟨4, 2, "RGB"⟩ 2 2 (by decide) (by decide)
    (by decide) (by decide)).2 (by decide)⟩

end ImageCompressorPy
